import Mathlib

/-!
# Verification of the FileManager repository

A shallow embedding of the `osmhlib/FileManager` C++ program and proofs about
its specification.

The program is a console file manager built on `std::filesystem`.  We model the
filesystem as a finite tree of named entries.  A directory carries a `readable`
flag modelling read permission (whether `directory_iterator` can enumerate it);
`file` models a regular file and `other` any other kind of entry (symlink,
device, ...).  Paths are lists of name components; `[]` denotes the root
directory itself (which always exists and cannot be created or removed by the
modelled operations, matching `"/"`).

The facade methods of `BaseFileManager.cpp` are modelled in the
`BaseFileManager` namespace, returning the HTTP-style status code and the
updated filesystem (plus the output vector for the two enumerating calls).
The duplicated direct-printing facade of `FileManager.cpp` is modelled in the
`PrintingFileManager` namespace.  The console controller of
`FileManagerUI.cpp` is modelled in the `FileManagerUI` namespace.
-/

mutual

/-- A node of the modelled filesystem: a regular file, some other entry kind,
or a directory with a read-permission flag and a list of named children. -/
inductive FSTree where
  | file : FSTree
  | other : FSTree
  | dir : Bool → EntryList → FSTree

/-- The children of a directory: an ordered association list of names to
subtrees (real directories cannot hold two entries with the same name; lookups
use the first binding). -/
inductive EntryList where
  | nil : EntryList
  | cons : String → FSTree → EntryList → EntryList

end

/-- A filesystem path, as its list of name components ( `[]` is the root). -/
abbrev FPath := List String

/-- Find the subtree bound to a name in a child list (first binding wins). -/
def findChild : EntryList → String → Option FSTree
  | .nil, _ => none
  | .cons n t r, nm => if n = nm then some t else findChild r nm

/-- Replace the first binding of a name in a child list, or append a new
binding when the name is absent. -/
def setChild : EntryList → String → FSTree → EntryList
  | .nil, nm, t => .cons nm t .nil
  | .cons n c r, nm, t => if n = nm then .cons n t r else .cons n c (setChild r nm t)

/-- Remove every binding of a name from a child list. -/
def removeChild : EntryList → String → EntryList
  | .nil, _ => .nil
  | .cons n c r, nm => if n = nm then removeChild r nm else .cons n c (removeChild r nm)

/-- The names bound in a child list, in order. -/
def childNames : EntryList → List String
  | .nil => []
  | .cons n _ r => n :: childNames r

/-- Resolve a path against a tree: the node it denotes, if any. -/
def lookupFS : FSTree → FPath → Option FSTree
  | t, [] => some t
  | .dir _ cs, nm :: rest =>
      match findChild cs nm with
      | some c => lookupFS c rest
      | none => none
  | .file, _ :: _ => none
  | .other, _ :: _ => none

/-- Models `fs::exists(path)`. -/
def fsExists (fs : FSTree) (p : FPath) : Bool :=
  (lookupFS fs p).isSome

/-- Models `fs::is_directory(path)`. -/
def isDirectory (fs : FSTree) (p : FPath) : Bool :=
  match lookupFS fs p with
  | some (.dir _ _) => true
  | _ => false

/-- Models `fs::is_regular_file(path)`. -/
def isRegularFile (fs : FSTree) (p : FPath) : Bool :=
  match lookupFS fs p with
  | some .file => true
  | _ => false

/-- Place a subtree at a path, overwriting the first binding of that name in
its parent.  Fails (`none`) when the path is the root or when some proper
ancestor of the path is missing or is not a directory — the cases in which the
underlying OS create/rename call reports an error. -/
def insertEntry : FSTree → FPath → FSTree → Option FSTree
  | _, [], _ => none
  | .dir r cs, [nm], t => some (.dir r (setChild cs nm t))
  | .dir r cs, nm :: rest, t =>
      match findChild cs nm with
      | some c =>
          match insertEntry c rest t with
          | some c2 => some (.dir r (setChild cs nm c2))
          | none => none
      | none => none
  | .file, _ :: _, _ => none
  | .other, _ :: _, _ => none

/-- Remove the entry at a path (together with its subtree, as `fs::remove_all`
does).  Removing the root or a missing entry leaves the tree unchanged. -/
def removeEntry : FSTree → FPath → FSTree
  | t, [] => t
  | .dir r cs, [nm] => .dir r (removeChild cs nm)
  | .dir r cs, nm :: rest =>
      match findChild cs nm with
      | some c => .dir r (setChild cs nm (removeEntry c rest))
      | none => .dir r cs
  | t, _ :: _ => t

/-- Does the leading part of the haystack coincide with the pattern?
(Helper for modelling `std::string::find`.) -/
def leadMatch : List Char → List Char → Bool
  | [], _ => true
  | _ :: _, [] => false
  | a :: as, b :: bs => (a == b) && leadMatch as bs

/-- Does the pattern occur contiguously somewhere in the haystack?  Models
`haystack.find(pattern) != std::string::npos`. -/
def occursIn (pat : List Char) : List Char → Bool
  | [] => leadMatch pat []
  | c :: rest => leadMatch pat (c :: rest) || occursIn pat rest

/-- The last component of a path — the `filename()` of the entry. -/
def lastName : FPath → String
  | [] => ""
  | [n] => n
  | _ :: rest => lastName rest

mutual

/-- One step of the recursive search over a single entry, mirroring
`fs::recursive_directory_iterator` with `skip_permission_denied`: the entry is
yielded (pushed onto the result vector when its filename contains the
pattern), then the walk descends into it when it is a readable directory and
skips it otherwise. -/
def walkTree (pat : List Char) (base : FPath) (nm : String) (t : FSTree)
    (acc : List FPath) : List FPath :=
  let acc1 := if occursIn pat nm.data then acc ++ [base ++ [nm]] else acc
  match t with
  | .dir true cs => walkKids pat (base ++ [nm]) cs acc1
  | _ => acc1

/-- Depth-first walk over a child list, in directory order. -/
def walkKids (pat : List Char) (base : FPath) (cs : EntryList)
    (acc : List FPath) : List FPath :=
  match cs with
  | .nil => acc
  | .cons nm t r => walkKids pat base r (walkTree pat base nm t acc)

end

mutual

/-- Specification-side description of the entries a recursive walk rooted
above `nm ↦ t` can reach: the entry itself, then (when it is a readable
directory) everything below it. -/
def visTree (base : FPath) (nm : String) (t : FSTree) : List FPath :=
  (base ++ [nm]) ::
    (match t with
     | .dir true cs => visKids (base ++ [nm]) cs
     | _ => [])

/-- Specification-side description of the entries visible under a child list:
all entries reachable from it through readable directories, in depth-first
directory order. -/
def visKids (base : FPath) (cs : EntryList) : List FPath :=
  match cs with
  | .nil => []
  | .cons nm t r => visTree base nm t ++ visKids base r

end

/-- All entries the recursive search can reach below a path: empty unless the
path is a readable directory. -/
def visibleUnder (fs : FSTree) (p : FPath) : List FPath :=
  match lookupFS fs p with
  | some (.dir true cs) => visKids p cs
  | _ => []

namespace BaseFileManager

/-- `BaseFileManager::listDirectoryContents` (BaseFileManager.cpp:33-52):
404 when the path does not exist, 400 when it is not a directory, otherwise
the immediate children's full paths are pushed onto the caller's vector and
200 is returned; a permission-denied `directory_iterator` throws before any
push and is caught as 500. -/
def listDirectoryContents (fs : FSTree) (path : FPath) (contents : List FPath) :
    Nat × List FPath :=
  match lookupFS fs path with
  | none => (404, contents)
  | some .file => (400, contents)
  | some .other => (400, contents)
  | some (.dir r cs) =>
      if r then (200, contents ++ (childNames cs).map (fun n => path ++ [n]))
      else (500, contents)

/-- `BaseFileManager::createFile` (BaseFileManager.cpp:61-74): `ofstream`
truncates an existing regular file (a success that leaves our abstract state
unchanged), fails on a directory or special file and on a missing or
non-directory parent (→ 500), and otherwise creates the file (→ 200). -/
def createFile (fs : FSTree) (p : FPath) : Nat × FSTree :=
  match lookupFS fs p with
  | some .file => (200, fs)
  | some .other => (500, fs)
  | some (.dir _ _) => (500, fs)
  | none =>
      match insertEntry fs p .file with
      | some fs2 => (200, fs2)
      | none => (500, fs)

/-- `BaseFileManager::deleteFile` (BaseFileManager.cpp:85-102). -/
def deleteFile (fs : FSTree) (p : FPath) : Nat × FSTree :=
  if fsExists fs p = false then (404, fs)
  else if isRegularFile fs p = false then (400, fs)
  else (200, removeEntry fs p)

/-- `BaseFileManager::createDirectory` (BaseFileManager.cpp:112-125): 400 when
the path already exists (of any kind), otherwise `fs::create_directory`, whose
failure (missing parent, non-directory parent) is caught as 500. -/
def createDirectory (fs : FSTree) (p : FPath) : Nat × FSTree :=
  if fsExists fs p then (400, fs)
  else
    match insertEntry fs p (.dir true .nil) with
    | some fs2 => (200, fs2)
    | none => (500, fs)

/-- `BaseFileManager::deleteDirectory` (BaseFileManager.cpp:136-153):
`fs::remove_all` deletes the directory recursively. -/
def deleteDirectory (fs : FSTree) (p : FPath) : Nat × FSTree :=
  if fsExists fs p = false then (404, fs)
  else if isDirectory fs p = false then (400, fs)
  else (200, removeEntry fs p)

/-- `BaseFileManager::rename` (BaseFileManager.cpp:164-177): 404 when the
source is missing, otherwise `fs::rename` moves the subtree; a failing move
(e.g. destination parent missing) is caught as 500.  Overwriting an existing
destination is modelled as replacement, per the spec's "OS-dependent overwrite
behavior is inherited as-is". -/
def rename (fs : FSTree) (oldPath newPath : FPath) : Nat × FSTree :=
  if fsExists fs oldPath = false then (404, fs)
  else
    match insertEntry (removeEntry fs oldPath) newPath
        ((lookupFS fs oldPath).getD .file) with
    | some fs2 => (200, fs2)
    | none => (500, fs)

/-- `BaseFileManager::searchFiles` (BaseFileManager.cpp:191-215): 404 when the
path is missing, 400 when not a directory, otherwise a recursive walk with
`skip_permission_denied` pushes every entry whose filename contains the
pattern onto the caller's vector, and the whole vector's emptiness selects
204 versus 200.  An unreadable root yields an empty walk (skipped, not an
error); the static model has no mid-walk failures, so no 500 arises here. -/
def searchFiles (fs : FSTree) (path : FPath) (pattern : String)
    (results : List FPath) : Nat × List FPath :=
  match lookupFS fs path with
  | none => (404, results)
  | some .file => (400, results)
  | some .other => (400, results)
  | some (.dir r cs) =>
      let out := if r then walkKids pattern.data path cs results else results
      if out.isEmpty then (204, out) else (200, out)

end BaseFileManager

/-! ## Helper lemmas about the recursive search -/

theorem lastName_concat : ∀ (base : FPath) (nm : String), lastName (base ++ [nm]) = nm
  | [], _ => rfl
  | [_], _ => rfl
  | _ :: b :: r, nm => lastName_concat (b :: r) nm

theorem occursIn_nil (l : List Char) : occursIn [] l = true := by
  cases l <;> rfl

mutual

theorem walkTree_eq (pat : List Char) (base : FPath) (nm : String) (t : FSTree)
    (acc : List FPath) :
    walkTree pat base nm t acc =
      acc ++ (visTree base nm t).filter (fun q => occursIn pat (lastName q).data) := by
  cases t with
  | file =>
      by_cases h : occursIn pat nm.data <;>
        simp [walkTree, visTree, h, lastName_concat]
  | other =>
      by_cases h : occursIn pat nm.data <;>
        simp [walkTree, visTree, h, lastName_concat]
  | dir r cs =>
      cases r with
      | false =>
          by_cases h : occursIn pat nm.data <;>
            simp [walkTree, visTree, h, lastName_concat]
      | true =>
          show walkKids pat (base ++ [nm]) cs
              (if occursIn pat nm.data then acc ++ [base ++ [nm]] else acc) = _
          rw [walkKids_eq]
          by_cases h : occursIn pat nm.data <;>
            simp [visTree, h, lastName_concat, List.filter_cons]

theorem walkKids_eq (pat : List Char) (base : FPath) (cs : EntryList)
    (acc : List FPath) :
    walkKids pat base cs acc =
      acc ++ (visKids base cs).filter (fun q => occursIn pat (lastName q).data) := by
  cases cs with
  | nil => simp [walkKids, visKids]
  | cons nm t r =>
      show walkKids pat base r (walkTree pat base nm t acc) = _
      rw [walkKids_eq, walkTree_eq]
      simp [visKids, List.filter_append]

end

/-- Characterization of `searchFiles` on a directory: it returns exactly the
visible entries whose filename contains the pattern, with 204 precisely when
that list is empty. -/
theorem searchFiles_char (fs : FSTree) (p : FPath) (pat : String)
    (hd : isDirectory fs p = true) :
    BaseFileManager.searchFiles fs p pat [] =
      (if (visibleUnder fs p).filter
            (fun q => occursIn pat.data (lastName q).data) = [] then 204 else 200,
       (visibleUnder fs p).filter (fun q => occursIn pat.data (lastName q).data)) := by
  unfold isDirectory at hd
  unfold BaseFileManager.searchFiles visibleUnder
  cases hl : lookupFS fs p with
  | none => rw [hl] at hd; simp at hd
  | some t =>
      cases t with
      | file => rw [hl] at hd; simp at hd
      | other => rw [hl] at hd; simp at hd
      | dir r cs =>
          cases r with
          | false => simp [List.filter]
          | true =>
              simp only [walkKids_eq, List.nil_append]
              cases hf : (visKids p cs).filter
                  (fun q => occursIn pat.data (lastName q).data) with
              | nil => simp [hf]
              | cons a l => simp [hf]

/-! ## Claims C2, C3, C4, C6, C9 -/

/-- C2: for every path P absent from the filesystem, `deleteFile(P)`,
`deleteDirectory(P)` and `rename(P, Q)` (for any Q) all return NotFound
(404). -/
theorem claim_C2_theorem (fs : FSTree) (p q : FPath) (h : fsExists fs p = false) :
    (BaseFileManager.deleteFile fs p).1 = 404
    ∧ (BaseFileManager.deleteDirectory fs p).1 = 404
    ∧ (BaseFileManager.rename fs p q).1 = 404 := by
  unfold BaseFileManager.deleteFile BaseFileManager.deleteDirectory
    BaseFileManager.rename
  rw [h]
  simp

/-- Witness for C2 at a concrete input: the empty root with a missing name. -/
theorem claim_C2_witness :
    fsExists (FSTree.dir true .nil) ["x"] = false
    ∧ ((BaseFileManager.deleteFile (FSTree.dir true .nil) ["x"]).1 = 404
      ∧ (BaseFileManager.deleteDirectory (FSTree.dir true .nil) ["x"]).1 = 404
      ∧ (BaseFileManager.rename (FSTree.dir true .nil) ["x"] ["y"]).1 = 404) :=
  ⟨rfl, claim_C2_theorem (FSTree.dir true .nil) ["x"] ["y"] rfl⟩

/-- C3: on an existing directory, `search` collects exactly the entries it can
reach (descending only through readable directories, skipping the rest
instead of failing) whose filename contains the pattern as a literal
case-sensitive substring, and returns NoMatches (204) iff that collection is
empty, Success (200) otherwise. -/
theorem claim_C3_theorem (fs : FSTree) (p : FPath) (pat : String)
    (hd : isDirectory fs p = true) :
    BaseFileManager.searchFiles fs p pat [] =
      (if (visibleUnder fs p).filter
            (fun q => occursIn pat.data (lastName q).data) = [] then 204 else 200,
       (visibleUnder fs p).filter (fun q => occursIn pat.data (lastName q).data))
    ∧ ((BaseFileManager.searchFiles fs p pat []).1 = 204 ↔
        (BaseFileManager.searchFiles fs p pat []).2 = []) := by
  have h := searchFiles_char fs p pat hd
  refine ⟨h, ?_⟩
  rw [h]
  cases hf : (visibleUnder fs p).filter
      (fun q => occursIn pat.data (lastName q).data) with
  | nil => simp [hf]
  | cons a l => simp [hf]

/-- Witness for C3: searching `".txt"` in a directory holding `a.txt`,
`b.log` and `sub/c.txt`. -/
theorem claim_C3_witness :
    isDirectory (FSTree.dir true (.cons "a.txt" .file (.cons "b.log" .file
      (.cons "sub" (.dir true (.cons "c.txt" .file .nil)) .nil)))) [] = true
    ∧ (BaseFileManager.searchFiles (FSTree.dir true (.cons "a.txt" .file
        (.cons "b.log" .file (.cons "sub" (.dir true (.cons "c.txt" .file .nil))
        .nil)))) [] ".txt" [] =
      (if (visibleUnder (FSTree.dir true (.cons "a.txt" .file (.cons "b.log"
            .file (.cons "sub" (.dir true (.cons "c.txt" .file .nil)) .nil)))) []).filter
            (fun q => occursIn ".txt".data (lastName q).data) = [] then 204 else 200,
       (visibleUnder (FSTree.dir true (.cons "a.txt" .file (.cons "b.log" .file
            (.cons "sub" (.dir true (.cons "c.txt" .file .nil)) .nil)))) []).filter
            (fun q => occursIn ".txt".data (lastName q).data))
      ∧ ((BaseFileManager.searchFiles (FSTree.dir true (.cons "a.txt" .file
            (.cons "b.log" .file (.cons "sub" (.dir true (.cons "c.txt" .file .nil))
            .nil)))) [] ".txt" []).1 = 204 ↔
          (BaseFileManager.searchFiles (FSTree.dir true (.cons "a.txt" .file
            (.cons "b.log" .file (.cons "sub" (.dir true (.cons "c.txt" .file .nil))
            .nil)))) [] ".txt" []).2 = [])) :=
  ⟨rfl, claim_C3_theorem _ _ ".txt" rfl⟩

/-- C4 counterexample: on an existing but empty directory, `search(D, "")`
returns NoMatches (204) with an empty result — not Success (200) as the claim
states. -/
theorem claim_C4_counterexample :
    isDirectory (FSTree.dir true (.cons "d" (.dir true .nil) .nil)) ["d"] = true
    ∧ BaseFileManager.searchFiles
        (FSTree.dir true (.cons "d" (.dir true .nil) .nil)) ["d"] "" [] = (204, []) :=
  ⟨rfl, rfl⟩

/-- C4 (amended): on an existing directory D, `search(D, "")` collects exactly
the entries visible under D (every filename contains the empty substring, and
entries behind unreadable directories are skipped), returning Success when at
least one entry is collected and NoMatches when the collection is empty. -/
theorem claim_C4_theorem (fs : FSTree) (p : FPath) (hd : isDirectory fs p = true) :
    BaseFileManager.searchFiles fs p "" [] =
      (if visibleUnder fs p = [] then 204 else 200, visibleUnder fs p) := by
  have h := searchFiles_char fs p "" hd
  have hfilt : (visibleUnder fs p).filter
      (fun q => occursIn "".data (lastName q).data) = visibleUnder fs p :=
    List.filter_eq_self.mpr (fun a _ => occursIn_nil _)
  rw [hfilt] at h
  exact h

/-- Witness for C4 (amended) on a directory with one file. -/
theorem claim_C4_witness :
    isDirectory (FSTree.dir true (.cons "a" .file .nil)) [] = true
    ∧ BaseFileManager.searchFiles (FSTree.dir true (.cons "a" .file .nil)) [] "" [] =
      (if visibleUnder (FSTree.dir true (.cons "a" .file .nil)) [] = []
        then 204 else 200,
       visibleUnder (FSTree.dir true (.cons "a" .file .nil)) []) :=
  ⟨rfl, claim_C4_theorem _ _ rfl⟩

/-- C6: `createDirectory` on any already-existing path returns InvalidRequest
(400) and leaves the filesystem unchanged. -/
theorem claim_C6_theorem (fs : FSTree) (p : FPath) (h : fsExists fs p = true) :
    BaseFileManager.createDirectory fs p = (400, fs) := by
  unfold BaseFileManager.createDirectory
  simp [h]

/-- Witness for C6: creating a directory over an existing regular file. -/
theorem claim_C6_witness :
    fsExists (FSTree.dir true (.cons "d" .file .nil)) ["d"] = true
    ∧ BaseFileManager.createDirectory (FSTree.dir true (.cons "d" .file .nil)) ["d"]
      = (400, FSTree.dir true (.cons "d" .file .nil)) :=
  ⟨rfl, claim_C6_theorem _ _ rfl⟩

/-- C9: both enumerating operations only append to the caller-supplied vector:
the result always extends the previous contents, and on a 404 or 400 return
nothing was appended (the model's static filesystem produces no mid-walk
failures, so no partial 500 result arises; prior entries are never removed). -/
theorem claim_C9_theorem (fs : FSTree) (p : FPath) (pat : String)
    (prev : List FPath) :
    (∃ extra, (BaseFileManager.listDirectoryContents fs p prev).2 = prev ++ extra
      ∧ ((BaseFileManager.listDirectoryContents fs p prev).1 = 404
          ∨ (BaseFileManager.listDirectoryContents fs p prev).1 = 400 → extra = []))
    ∧ (∃ extra, (BaseFileManager.searchFiles fs p pat prev).2 = prev ++ extra
      ∧ ((BaseFileManager.searchFiles fs p pat prev).1 = 404
          ∨ (BaseFileManager.searchFiles fs p pat prev).1 = 400 → extra = [])) := by
  constructor
  · unfold BaseFileManager.listDirectoryContents
    cases hl : lookupFS fs p with
    | none => exact ⟨[], by simp, fun _ => rfl⟩
    | some t =>
        cases t with
        | file => exact ⟨[], by simp, fun _ => rfl⟩
        | other => exact ⟨[], by simp, fun _ => rfl⟩
        | dir r cs =>
            cases r with
            | false => exact ⟨[], by simp, fun _ => rfl⟩
            | true =>
                refine ⟨(childNames cs).map (fun n => p ++ [n]), by simp, ?_⟩
                intro h
                rcases h with h | h <;> simp at h
  · unfold BaseFileManager.searchFiles
    cases hl : lookupFS fs p with
    | none => exact ⟨[], by simp, fun _ => rfl⟩
    | some t =>
        cases t with
        | file => exact ⟨[], by simp, fun _ => rfl⟩
        | other => exact ⟨[], by simp, fun _ => rfl⟩
        | dir r cs =>
            cases r with
            | false =>
                refine ⟨[], ?_, fun _ => rfl⟩
                simp only [Bool.false_eq_true, if_false]
                split <;> simp
            | true =>
                refine ⟨(visKids p cs).filter
                    (fun q => occursIn pat.data (lastName q).data), ?_, ?_⟩
                · simp only [if_true, walkKids_eq]
                  split <;> rfl
                · intro h
                  simp only [if_true, walkKids_eq] at h
                  rcases h with h | h <;> split at h <;> simp at h

/-- Witness for C9 at a concrete input: a missing path with a non-empty
previous vector. -/
theorem claim_C9_witness :
    (∃ extra, (BaseFileManager.listDirectoryContents (FSTree.dir true .nil) ["x"]
        [["q"]]).2 = [["q"]] ++ extra
      ∧ ((BaseFileManager.listDirectoryContents (FSTree.dir true .nil) ["x"]
            [["q"]]).1 = 404
          ∨ (BaseFileManager.listDirectoryContents (FSTree.dir true .nil) ["x"]
            [["q"]]).1 = 400 → extra = []))
    ∧ (∃ extra, (BaseFileManager.searchFiles (FSTree.dir true .nil) ["x"] "s"
        [["q"]]).2 = [["q"]] ++ extra
      ∧ ((BaseFileManager.searchFiles (FSTree.dir true .nil) ["x"] "s"
            [["q"]]).1 = 404
          ∨ (BaseFileManager.searchFiles (FSTree.dir true .nil) ["x"] "s"
            [["q"]]).1 = 400 → extra = [])) :=
  claim_C9_theorem (FSTree.dir true .nil) ["x"] "s" [["q"]]

/-! ## Helper lemmas about path resolution and mutation -/

theorem findChild_setChild_self : ∀ (cs : EntryList) (nm : String) (t : FSTree),
    findChild (setChild cs nm t) nm = some t
  | .nil, nm, t => by simp [setChild, findChild]
  | .cons n c r, nm, t => by
      by_cases h : n = nm
      · simp [setChild, h, findChild]
      · simp [setChild, h, findChild, findChild_setChild_self r nm t]

theorem mem_childNames_setChild : ∀ (cs : EntryList) (nm : String) (t : FSTree),
    nm ∈ childNames (setChild cs nm t)
  | .nil, nm, t => by simp [setChild, childNames]
  | .cons n c r, nm, t => by
      by_cases h : n = nm
      · simp [setChild, h, childNames]
      · simp only [setChild, if_neg h, childNames, List.mem_cons]
        exact Or.inr (mem_childNames_setChild r nm t)

theorem findChild_mem_childNames : ∀ (cs : EntryList) (nm : String) (t : FSTree),
    findChild cs nm = some t → nm ∈ childNames cs
  | .nil, nm, t => by intro h; simp [findChild] at h
  | .cons n c r, nm, t => by
      intro h
      by_cases hn : n = nm
      · simp [childNames, hn]
      · simp only [findChild, if_neg hn] at h
        simp only [childNames, List.mem_cons]
        exact Or.inr (findChild_mem_childNames r nm t h)

theorem not_mem_childNames_removeChild : ∀ (cs : EntryList) (nm : String),
    nm ∉ childNames (removeChild cs nm)
  | .nil, nm => by simp [removeChild, childNames]
  | .cons n c r, nm => by
      by_cases h : n = nm
      · simpa [removeChild, h] using not_mem_childNames_removeChild r nm
      · simp only [removeChild, if_neg h, childNames, List.mem_cons, not_or]
        exact ⟨fun hh => h hh.symm, not_mem_childNames_removeChild r nm⟩

theorem lookupFS_append : ∀ (p q : FPath) (fs : FSTree),
    lookupFS fs (p ++ q) = (lookupFS fs p).bind (fun t => lookupFS t q)
  | [], _, fs => by cases fs <;> rfl
  | nm :: rest, q, fs => by
      cases fs with
      | file => rfl
      | other => rfl
      | dir r cs =>
          cases hfc : findChild cs nm with
          | none => simp [lookupFS, hfc]
          | some c => simp [lookupFS, hfc, lookupFS_append rest q c]

theorem insertEntry_cons₂ (r : Bool) (cs : EntryList) (nm x : String)
    (xs : List String) (t : FSTree) :
    insertEntry (.dir r cs) (nm :: x :: xs) t =
      match findChild cs nm with
      | some c =>
          match insertEntry c (x :: xs) t with
          | some c2 => some (.dir r (setChild cs nm c2))
          | none => none
      | none => none := rfl

theorem removeEntry_cons₂ (r : Bool) (cs : EntryList) (nm x : String)
    (xs : List String) :
    removeEntry (.dir r cs) (nm :: x :: xs) =
      match findChild cs nm with
      | some c => .dir r (setChild cs nm (removeEntry c (x :: xs)))
      | none => .dir r cs := rfl

/-- After a successful insertion of `t` at `base ++ [nm]`, the parent
directory's children are exactly the old ones with `nm` rebound to `t`. -/
theorem insertEntry_parent : ∀ (base : FPath) (fs fs2 : FSTree) (nm : String)
    (t : FSTree) (rb : Bool) (cs : EntryList),
    lookupFS fs base = some (.dir rb cs) →
    insertEntry fs (base ++ [nm]) t = some fs2 →
    lookupFS fs2 base = some (.dir rb (setChild cs nm t))
  | [], fs, fs2, nm, t, rb, cs => by
      intro hl hi
      simp only [lookupFS, Option.some.injEq] at hl
      subst hl
      simp only [List.nil_append, insertEntry, Option.some.injEq] at hi
      subst hi
      rfl
  | b :: rest, fs, fs2, nm, t, rb, cs => by
      intro hl hi
      cases fs with
      | file => simp [lookupFS] at hl
      | other => simp [lookupFS] at hl
      | dir r0 cs0 =>
          simp only [lookupFS] at hl
          cases hfc : findChild cs0 b with
          | none =>
              rw [hfc] at hl
              exact Option.noConfusion
                (show (none : Option FSTree) = some (FSTree.dir rb cs) from hl)
          | some c =>
              rw [hfc] at hl
              have hl2 : lookupFS c rest = some (FSTree.dir rb cs) := hl
              cases hys : rest ++ [nm] with
              | nil => exact absurd hys (by simp)
              | cons y ys =>
                  rw [show (b :: rest) ++ [nm] = b :: y :: ys by
                    rw [List.cons_append, hys]] at hi
                  rw [insertEntry_cons₂, hfc] at hi
                  have hi2 : (match insertEntry c (y :: ys) t with
                    | some c2 => some (FSTree.dir r0 (setChild cs0 b c2))
                    | none => none) = some fs2 := hi
                  cases hic : insertEntry c (y :: ys) t with
                  | none =>
                      rw [hic] at hi2
                      exact Option.noConfusion hi2
                  | some c2 =>
                      rw [hic] at hi2
                      have hi3 : some (FSTree.dir r0 (setChild cs0 b c2)) =
                        some fs2 := hi2
                      simp only [Option.some.injEq] at hi3
                      subst hi3
                      have ih := insertEntry_parent rest c c2 nm t rb cs hl2
                        (by rw [hys]; exact hic)
                      simp only [lookupFS, findChild_setChild_self]
                      exact ih

/-- Removing the entry `base ++ [nm]` unbinds exactly `nm` in the parent
directory's children. -/
theorem removeEntry_parent : ∀ (base : FPath) (fs : FSTree) (nm : String)
    (rb : Bool) (cs : EntryList),
    lookupFS fs base = some (.dir rb cs) →
    lookupFS (removeEntry fs (base ++ [nm])) base =
      some (.dir rb (removeChild cs nm))
  | [], fs, nm, rb, cs => by
      intro hl
      simp only [lookupFS, Option.some.injEq] at hl
      subst hl
      rfl
  | b :: rest, fs, nm, rb, cs => by
      intro hl
      cases fs with
      | file => simp [lookupFS] at hl
      | other => simp [lookupFS] at hl
      | dir r0 cs0 =>
          simp only [lookupFS] at hl
          cases hfc : findChild cs0 b with
          | none =>
              rw [hfc] at hl
              exact Option.noConfusion
                (show (none : Option FSTree) = some (FSTree.dir rb cs) from hl)
          | some c =>
              rw [hfc] at hl
              have hl2 : lookupFS c rest = some (FSTree.dir rb cs) := hl
              cases hys : rest ++ [nm] with
              | nil => exact absurd hys (by simp)
              | cons y ys =>
                  rw [show (b :: rest) ++ [nm] = b :: y :: ys by
                    rw [List.cons_append, hys]]
                  rw [removeEntry_cons₂, hfc]
                  have ih := removeEntry_parent rest c nm rb cs hl2
                  rw [hys] at ih
                  show lookupFS (FSTree.dir r0
                    (setChild cs0 b (removeEntry c (y :: ys)))) (b :: rest) = _
                  simp only [lookupFS, findChild_setChild_self]
                  exact ih

/-! ## Claim C5 -/

/-- C5 counterexample: the claim quantifies over every path whose parent
directory exists.  With an existing but unreadable parent directory `d`,
`createFile("d/f")` succeeds, yet `list("d")` fails with 500 and leaves the
output vector empty, so the returned sequence does not include the new file. -/
theorem claim_C5_counterexample :
    fsExists (FSTree.dir true (.cons "d" (.dir false .nil) .nil)) ["d"] = true
    ∧ isDirectory (FSTree.dir true (.cons "d" (.dir false .nil) .nil)) ["d"] = true
    ∧ BaseFileManager.createFile
        (FSTree.dir true (.cons "d" (.dir false .nil) .nil)) ["d", "f"]
        = (200, FSTree.dir true (.cons "d" (.dir false (.cons "f" .file .nil)) .nil))
    ∧ ["d", "f"] ∉ (BaseFileManager.listDirectoryContents
        (FSTree.dir true (.cons "d" (.dir false (.cons "f" .file .nil)) .nil))
        ["d"] []).2 := by
  refine ⟨rfl, rfl, rfl, ?_⟩
  show ["d", "f"] ∉ ([] : List FPath)
  simp

/-- C5 (amended): for every path `base ++ [nm]` whose parent directory exists
and is readable, after a successful `createFile` the parent listing includes
the path, and after a subsequent successful `deleteFile` it excludes it. -/
theorem claim_C5_theorem (fs fs1 fs2 : FSTree) (base : FPath) (nm : String)
    (cs : EntryList)
    (hpar : lookupFS fs base = some (.dir true cs))
    (hc : BaseFileManager.createFile fs (base ++ [nm]) = (200, fs1))
    (hd : BaseFileManager.deleteFile fs1 (base ++ [nm]) = (200, fs2)) :
    (base ++ [nm]) ∈ (BaseFileManager.listDirectoryContents fs1 base []).2
    ∧ (base ++ [nm]) ∉ (BaseFileManager.listDirectoryContents fs2 base []).2 := by
  have hlook := lookupFS_append base [nm] fs
  rw [hpar] at hlook
  have hlook2 : lookupFS fs (base ++ [nm]) = lookupFS (FSTree.dir true cs) [nm] :=
    hlook
  have step1 : ∃ cs1, lookupFS fs1 base = some (FSTree.dir true cs1)
      ∧ nm ∈ childNames cs1 := by
    unfold BaseFileManager.createFile at hc
    cases hfc : findChild cs nm with
    | some c =>
        have hl3 : lookupFS fs (base ++ [nm]) = some c := by
          rw [hlook2]; simp [lookupFS, hfc]
        rw [hl3] at hc
        cases c with
        | file =>
            have hc2 : ((200 : Nat), fs) = (200, fs1) := hc
            injection hc2 with h1 h2
            exact ⟨cs, h2 ▸ hpar, findChild_mem_childNames cs nm .file hfc⟩
        | other =>
            have hc2 : ((500 : Nat), fs) = (200, fs1) := hc
            injection hc2 with h1 h2
            exact absurd h1 (by omega)
        | dir rr cc =>
            have hc2 : ((500 : Nat), fs) = (200, fs1) := hc
            injection hc2 with h1 h2
            exact absurd h1 (by omega)
    | none =>
        have hl3 : lookupFS fs (base ++ [nm]) = none := by
          rw [hlook2]; simp [lookupFS, hfc]
        rw [hl3] at hc
        cases hins : insertEntry fs (base ++ [nm]) .file with
        | some fsI =>
            rw [hins] at hc
            have hc2 : ((200 : Nat), fsI) = (200, fs1) := hc
            injection hc2 with h1 h2
            exact ⟨setChild cs nm .file,
              h2 ▸ insertEntry_parent base fs fsI nm .file true cs hpar hins,
              mem_childNames_setChild cs nm .file⟩
        | none =>
            rw [hins] at hc
            have hc2 : ((500 : Nat), fs) = (200, fs1) := hc
            injection hc2 with h1 h2
            exact absurd h1 (by omega)
  obtain ⟨cs1, hcs1, hmem⟩ := step1
  constructor
  · unfold BaseFileManager.listDirectoryContents
    rw [hcs1]
    show (base ++ [nm]) ∈ [] ++ (childNames cs1).map (fun n => base ++ [n])
    simp only [List.nil_append, List.mem_map]
    exact ⟨nm, hmem, rfl⟩
  · unfold BaseFileManager.deleteFile at hd
    split_ifs at hd with h1 h2
    · have h404 : (404 : Nat) = 200 := congrArg Prod.fst hd
      exact absurd h404 (by omega)
    · have h400 : (400 : Nat) = 200 := congrArg Prod.fst hd
      exact absurd h400 (by omega)
    · have hfs2 : removeEntry fs1 (base ++ [nm]) = fs2 :=
        congrArg Prod.snd hd
      subst hfs2
      have hrm := removeEntry_parent base fs1 nm true cs1 hcs1
      unfold BaseFileManager.listDirectoryContents
      rw [hrm]
      show (base ++ [nm]) ∉
        [] ++ (childNames (removeChild cs1 nm)).map (fun n => base ++ [n])
      simp only [List.nil_append]
      intro hmem2
      obtain ⟨n2, hn2, heq⟩ := List.mem_map.mp hmem2
      have hn : n2 = nm := by
        have := List.append_cancel_left heq
        simpa using this
      subst hn
      exact not_mem_childNames_removeChild cs1 n2 hn2

/-- Witness for C5 (amended): creating then deleting `home/a` under the
readable directory `home`. -/
theorem claim_C5_witness :
    ["home", "a"] ∈ (BaseFileManager.listDirectoryContents
      (FSTree.dir true (.cons "home" (.dir true (.cons "a" .file .nil)) .nil))
      ["home"] []).2
    ∧ ["home", "a"] ∉ (BaseFileManager.listDirectoryContents
      (FSTree.dir true (.cons "home" (.dir true .nil) .nil)) ["home"] []).2 :=
  claim_C5_theorem (FSTree.dir true (.cons "home" (.dir true .nil) .nil))
    (FSTree.dir true (.cons "home" (.dir true (.cons "a" .file .nil)) .nil))
    (FSTree.dir true (.cons "home" (.dir true .nil) .nil))
    ["home"] "a" .nil rfl rfl rfl

namespace FileManagerUI

/-- The whitespace characters `std::isspace` recognizes in the default C
locale, which `std::stoi` skips before parsing. -/
def isSpaceCh (c : Char) : Bool :=
  c = ' ' || c = '\t' || c = '\n' || c = '\x0b' || c = '\x0c' || c = '\r'

/-- ASCII decimal digit test. -/
def isDigitCh (c : Char) : Bool :=
  48 ≤ c.toNat && c.toNat ≤ 57

/-- The value of a digit run. -/
def digitsToNat (ds : List Char) : Nat :=
  ds.foldl (fun a c => 10 * a + (c.toNat - 48)) 0

/-- Models `std::stoi` on a command line: skip leading whitespace, read an
optional sign, then a non-empty run of digits, ignoring trailing characters.
`none` models a thrown exception — `std::invalid_argument` when there is no
digit run, `std::out_of_range` when the value does not fit in a 32-bit
`int`; neither is caught anywhere in the program. -/
def stoi (s : String) : Option Int :=
  let cs := s.data.dropWhile isSpaceCh
  let signed : Bool × List Char :=
    match cs with
    | '-' :: r => (true, r)
    | '+' :: r => (false, r)
    | r => (false, r)
  let ds := signed.2.takeWhile isDigitCh
  if ds.isEmpty then none
  else
    let v : Int :=
      if signed.1 then -(digitsToNat ds : Int) else (digitsToNat ds : Int)
    if v < -2147483648 ∨ 2147483647 < v then none else some v

/-- The console inputs one iteration of the menu loop may consume after the
command line: a path, a second path (for rename), a search pattern, and the
single confirmation character read by `cin >> confirm`. -/
structure Inputs where
  path : FPath
  newPath : FPath
  pattern : String
  confirm : Char

/-- Observable outcome of one iteration of `FileManagerUI::start`. -/
inductive StepResult where
  | cont : StepResult
  | exited : StepResult
  | crashed : StepResult
deriving DecidableEq

/-- Observable console effects of one iteration, beyond the menu itself. -/
inductive Event where
  | status : Nat → Event
  | listed : List FPath → Event
  | unknown : Event
  | canceled : Event
  | cleared : Event
  | goodbye : Event
deriving DecidableEq

/-- `FileManagerUI::createFile` (FileManagerUI.cpp:100-106). -/
def uiCreateFile (fs : FSTree) (p : FPath) : FSTree × List Event :=
  ((BaseFileManager.createFile fs p).2,
   [.status (BaseFileManager.createFile fs p).1])

/-- `FileManagerUI::deleteFile` (FileManagerUI.cpp:111-127): the facade call
is gated on the confirmation character being `'y'` or `'Y'`. -/
def uiDeleteFile (fs : FSTree) (p : FPath) (confirm : Char) :
    FSTree × List Event :=
  if confirm = 'y' ∨ confirm = 'Y' then
    ((BaseFileManager.deleteFile fs p).2,
     [.status (BaseFileManager.deleteFile fs p).1])
  else (fs, [.canceled])

/-- `FileManagerUI::createDirectory` (FileManagerUI.cpp:132-138). -/
def uiCreateDirectory (fs : FSTree) (p : FPath) : FSTree × List Event :=
  ((BaseFileManager.createDirectory fs p).2,
   [.status (BaseFileManager.createDirectory fs p).1])

/-- `FileManagerUI::deleteDirectory` (FileManagerUI.cpp:143-159). -/
def uiDeleteDirectory (fs : FSTree) (p : FPath) (confirm : Char) :
    FSTree × List Event :=
  if confirm = 'y' ∨ confirm = 'Y' then
    ((BaseFileManager.deleteDirectory fs p).2,
     [.status (BaseFileManager.deleteDirectory fs p).1])
  else (fs, [.canceled])

/-- `FileManagerUI::listDirectoryContents` (FileManagerUI.cpp:164-180): the
status message is printed first, the contents only on 200. -/
def uiListDirectoryContents (fs : FSTree) (p : FPath) : FSTree × List Event :=
  if (BaseFileManager.listDirectoryContents fs p []).1 = 200 then
    (fs, [.status (BaseFileManager.listDirectoryContents fs p []).1,
          .listed (BaseFileManager.listDirectoryContents fs p []).2])
  else (fs, [.status (BaseFileManager.listDirectoryContents fs p []).1])

/-- `FileManagerUI::renameItem` (FileManagerUI.cpp:185-196). -/
def uiRenameItem (fs : FSTree) (o n : FPath) : FSTree × List Event :=
  ((BaseFileManager.rename fs o n).2,
   [.status (BaseFileManager.rename fs o n).1])

/-- `FileManagerUI::searchFiles` (FileManagerUI.cpp:201-219). -/
def uiSearchFiles (fs : FSTree) (p : FPath) (pat : String) :
    FSTree × List Event :=
  if (BaseFileManager.searchFiles fs p pat []).1 = 200 then
    (fs, [.status (BaseFileManager.searchFiles fs p pat []).1,
          .listed (BaseFileManager.searchFiles fs p pat []).2])
  else (fs, [.status (BaseFileManager.searchFiles fs p pat []).1])

/-- `FileManagerUI::clearConsoleWithConfirmation` (FileManagerUI.cpp:224-241):
the `system("cls"/"clear")` call is gated on the confirmation character. -/
def uiClearConsole (fs : FSTree) (confirm : Char) : FSTree × List Event :=
  if confirm = 'y' ∨ confirm = 'Y' then (fs, [.cleared]) else (fs, [.canceled])

/-- The `switch (stoi(command))` body of `FileManagerUI::processCommand`
(FileManagerUI.cpp:64-95), given the already-parsed selector.  `case 9` is a
bare `break` (exit is handled in `start()`), and the `default` branch prints
the unknown-command message. -/
def dispatch (fs : FSTree) (k : Int) (inp : Inputs) :
    StepResult × FSTree × List Event :=
  if k = 1 then (.cont, uiCreateFile fs inp.path)
  else if k = 2 then (.cont, uiDeleteFile fs inp.path inp.confirm)
  else if k = 3 then (.cont, uiCreateDirectory fs inp.path)
  else if k = 4 then (.cont, uiDeleteDirectory fs inp.path inp.confirm)
  else if k = 5 then (.cont, uiListDirectoryContents fs inp.path)
  else if k = 6 then (.cont, uiRenameItem fs inp.path inp.newPath)
  else if k = 7 then (.cont, uiSearchFiles fs inp.path inp.pattern)
  else if k = 8 then (.cont, uiClearConsole fs inp.confirm)
  else if k = 9 then (.cont, fs, [])
  else (.cont, fs, [.unknown])

/-- `FileManagerUI::processCommand` (FileManagerUI.cpp:64-95): `std::stoi`
may throw (modelled as `none`), and nothing catches it — the process
terminates. -/
def processCommand (fs : FSTree) (command : String) (inp : Inputs) :
    StepResult × FSTree × List Event :=
  match stoi command with
  | none => (.crashed, fs, [])
  | some k => dispatch fs k inp

/-- One iteration of the `while (true)` loop of `FileManagerUI::start`
(FileManagerUI.cpp:23-58): the literal line `"9"` is special-cased with an
exit confirmation; every other line goes to `processCommand`. -/
def startIteration (fs : FSTree) (command : String) (inp : Inputs) :
    StepResult × FSTree × List Event :=
  if command = "9" then
    if inp.confirm = 'y' ∨ inp.confirm = 'Y' then (.exited, fs, [.goodbye])
    else (.cont, fs, [])
  else processCommand fs command inp

/-- `processCommand` never exits the loop by itself: every `switch` branch
falls back into the loop. -/
theorem dispatch_fst (fs : FSTree) (k : Int) (inp : Inputs) :
    (dispatch fs k inp).1 = StepResult.cont := by
  unfold dispatch
  split_ifs <;> rfl

end FileManagerUI

/-! ## Claims C1, C7, C10 -/

/-- C1 counterexample: on the non-numeric line `"abc"`, `std::stoi` throws an
uncaught `std::invalid_argument` and the program terminates — the iteration
crashes and no unknown-command message is printed, contradicting the claim
that the controller never crashes on non-numeric input. -/
theorem claim_C1_counterexample :
    (FileManagerUI.startIteration (FSTree.dir true .nil) "abc"
      ⟨[], [], "", 'n'⟩).1 = FileManagerUI.StepResult.crashed
    ∧ FileManagerUI.Event.unknown ∉
        (FileManagerUI.startIteration (FSTree.dir true .nil) "abc"
          ⟨[], [], "", 'n'⟩).2.2 := by
  refine ⟨rfl, ?_⟩
  show FileManagerUI.Event.unknown ∉ ([] : List FileManagerUI.Event)
  simp

/-- C1 (amended): for every input line other than `"9"`, when its leading
numeric prefix parses to an integer outside 1..9 the controller reports an
unknown command and the loop continues unchanged; but when `std::stoi` throws
(no digits, or out of `int` range) the exception is uncaught and the program
terminates instead of reporting an unknown command. -/
theorem claim_C1_theorem (fs : FSTree) (inp : FileManagerUI.Inputs)
    (s : String) (k : Int) (h9 : s ≠ "9") :
    (FileManagerUI.stoi s = none →
      FileManagerUI.startIteration fs s inp = (.crashed, fs, []))
    ∧ (FileManagerUI.stoi s = some k → k < 1 ∨ 9 < k →
      FileManagerUI.startIteration fs s inp = (.cont, fs, [.unknown])) := by
  constructor
  · intro hn
    unfold FileManagerUI.startIteration
    rw [if_neg h9]
    unfold FileManagerUI.processCommand
    rw [hn]
  · intro hk hrange
    unfold FileManagerUI.startIteration
    rw [if_neg h9]
    unfold FileManagerUI.processCommand
    rw [hk]
    show FileManagerUI.dispatch fs k inp = (.cont, fs, [.unknown])
    unfold FileManagerUI.dispatch
    rw [if_neg (by omega : ¬ k = 1), if_neg (by omega : ¬ k = 2),
      if_neg (by omega : ¬ k = 3), if_neg (by omega : ¬ k = 4),
      if_neg (by omega : ¬ k = 5), if_neg (by omega : ¬ k = 6),
      if_neg (by omega : ¬ k = 7), if_neg (by omega : ¬ k = 8),
      if_neg (by omega : ¬ k = 9)]

/-- Witness for C1 (amended) at the line `"42"`, which parses to 42 and is
reported as an unknown command. -/
theorem claim_C1_witness :
    ("42" : String) ≠ "9"
    ∧ ((FileManagerUI.stoi "42" = none →
        FileManagerUI.startIteration (FSTree.dir true .nil) "42"
          ⟨[], [], "", 'n'⟩ = (.crashed, FSTree.dir true .nil, []))
      ∧ (FileManagerUI.stoi "42" = some 42 → (42 : Int) < 1 ∨ 9 < (42 : Int) →
        FileManagerUI.startIteration (FSTree.dir true .nil) "42"
          ⟨[], [], "", 'n'⟩ = (.cont, FSTree.dir true .nil, [.unknown]))) :=
  ⟨by decide,
   claim_C1_theorem (FSTree.dir true .nil) ⟨[], [], "", 'n'⟩ "42" 42 (by decide)⟩

/-- C7: for each destructive command (2 = delete file, 4 = delete directory,
8 = clear console, 9 = exit) and any confirmation character other than `'y'`
or `'Y'`, the controller cancels: the filesystem is unchanged, no facade or
system call is issued (no status, cleared or goodbye event — only the
cancellation message, and none at all for exit), and the loop continues. -/
theorem claim_C7_theorem (fs : FSTree) (inp : FileManagerUI.Inputs)
    (hy : inp.confirm ≠ 'y') (hY : inp.confirm ≠ 'Y') :
    FileManagerUI.startIteration fs "2" inp = (.cont, fs, [.canceled])
    ∧ FileManagerUI.startIteration fs "4" inp = (.cont, fs, [.canceled])
    ∧ FileManagerUI.startIteration fs "8" inp = (.cont, fs, [.canceled])
    ∧ FileManagerUI.startIteration fs "9" inp = (.cont, fs, []) := by
  have hc : ¬ (inp.confirm = 'y' ∨ inp.confirm = 'Y') := by
    rintro (h | h)
    · exact hy h
    · exact hY h
  refine ⟨?_, ?_, ?_, ?_⟩
  · show ((.cont : FileManagerUI.StepResult),
      FileManagerUI.uiDeleteFile fs inp.path inp.confirm) = (.cont, fs, [.canceled])
    unfold FileManagerUI.uiDeleteFile
    rw [if_neg hc]
  · show ((.cont : FileManagerUI.StepResult),
      FileManagerUI.uiDeleteDirectory fs inp.path inp.confirm) = (.cont, fs, [.canceled])
    unfold FileManagerUI.uiDeleteDirectory
    rw [if_neg hc]
  · show ((.cont : FileManagerUI.StepResult),
      FileManagerUI.uiClearConsole fs inp.confirm) = (.cont, fs, [.canceled])
    unfold FileManagerUI.uiClearConsole
    rw [if_neg hc]
  · show (if inp.confirm = 'y' ∨ inp.confirm = 'Y'
        then ((.exited : FileManagerUI.StepResult), fs, [FileManagerUI.Event.goodbye])
        else (.cont, fs, [])) = (.cont, fs, [])
    rw [if_neg hc]

/-- Witness for C7 with the confirmation character `'n'`. -/
theorem claim_C7_witness :
    FileManagerUI.startIteration (FSTree.dir true .nil) "2" ⟨["p"], [], "", 'n'⟩
      = (.cont, FSTree.dir true .nil, [.canceled])
    ∧ FileManagerUI.startIteration (FSTree.dir true .nil) "4" ⟨["p"], [], "", 'n'⟩
      = (.cont, FSTree.dir true .nil, [.canceled])
    ∧ FileManagerUI.startIteration (FSTree.dir true .nil) "8" ⟨["p"], [], "", 'n'⟩
      = (.cont, FSTree.dir true .nil, [.canceled])
    ∧ FileManagerUI.startIteration (FSTree.dir true .nil) "9" ⟨["p"], [], "", 'n'⟩
      = (.cont, FSTree.dir true .nil, []) :=
  claim_C7_theorem (FSTree.dir true .nil) ⟨["p"], [], "", 'n'⟩
    (by decide) (by decide)

/-- C10: command dispatch keys on the integer parse of the line, not the
line itself — any two non-`"9"` lines with the same parse behave
identically (so `"1abc"` acts exactly like `"1"`); a non-`"9"` line parsing
to 9 (such as `"09"` or `"9x"`) is a silent no-op that neither exits nor
reports an unknown command; and no non-`"9"` line ever exits the loop. -/
theorem claim_C10_theorem (fs : FSTree) (inp : FileManagerUI.Inputs)
    (s t : String) (k : Int) (hs : s ≠ "9") (ht : t ≠ "9")
    (hps : FileManagerUI.stoi s = some k)
    (hpt : FileManagerUI.stoi t = some k) :
    FileManagerUI.startIteration fs s inp = FileManagerUI.startIteration fs t inp
    ∧ (k = 9 → FileManagerUI.startIteration fs s inp = (.cont, fs, []))
    ∧ (FileManagerUI.startIteration fs s inp).1 ≠ FileManagerUI.StepResult.exited := by
  have hstep : ∀ u : String, u ≠ "9" → FileManagerUI.stoi u = some k →
      FileManagerUI.startIteration fs u inp = FileManagerUI.dispatch fs k inp := by
    intro u hu hpu
    unfold FileManagerUI.startIteration
    rw [if_neg hu]
    unfold FileManagerUI.processCommand
    rw [hpu]
  refine ⟨?_, ?_, ?_⟩
  · rw [hstep s hs hps, hstep t ht hpt]
  · intro h9
    rw [hstep s hs hps, h9]
    rfl
  · rw [hstep s hs hps, FileManagerUI.dispatch_fst]
    simp

/-- Witness for C10: the line `"1abc"` behaves exactly like `"1"`. -/
theorem claim_C10_witness :
    FileManagerUI.startIteration (FSTree.dir true .nil) "1abc" ⟨[], [], "", 'n'⟩
      = FileManagerUI.startIteration (FSTree.dir true .nil) "1" ⟨[], [], "", 'n'⟩
    ∧ ((1 : Int) = 9 →
      FileManagerUI.startIteration (FSTree.dir true .nil) "1abc" ⟨[], [], "", 'n'⟩
        = (.cont, FSTree.dir true .nil, []))
    ∧ (FileManagerUI.startIteration (FSTree.dir true .nil) "1abc"
        ⟨[], [], "", 'n'⟩).1 ≠ FileManagerUI.StepResult.exited :=
  claim_C10_theorem (FSTree.dir true .nil) ⟨[], [], "", 'n'⟩ "1abc" "1" 1
    (by decide) (by decide) rfl rfl

namespace PrintingFileManager

/-- How the direct-printing `BaseFileManager` class of FileManager.cpp
reports an operation: `ok` when the success message is printed, `err` when
the error message is printed, `crash` when an exception escapes the function
(this variant has no try/catch around its removal calls). -/
inductive PrintOut where
  | ok : PrintOut
  | err : PrintOut
  | crash : PrintOut
deriving DecidableEq

/-- `BaseFileManager::createFile` of the printing variant
(FileManager.cpp:41-49): the same `ofstream` creation as the status-code
variant, reported by message instead of by code. -/
def createFile (fs : FSTree) (p : FPath) : PrintOut × FSTree :=
  match lookupFS fs p with
  | some .file => (.ok, fs)
  | some .other => (.err, fs)
  | some (.dir _ _) => (.err, fs)
  | none =>
      match insertEntry fs p .file with
      | some fs2 => (.ok, fs2)
      | none => (.err, fs)

/-- `BaseFileManager::deleteFile` of the printing variant
(FileManager.cpp:58-65): a bare `fs::remove(filePath)` with no type check.
`fs::remove` also deletes an empty directory (returning true), returns false
when the path is missing (printed as an error), and throws on a non-empty
directory — an exception this variant does not catch. -/
def deleteFile (fs : FSTree) (p : FPath) : PrintOut × FSTree :=
  match p with
  | [] => (.err, fs)
  | _ :: _ =>
      match lookupFS fs p with
      | none => (.err, fs)
      | some .file => (.ok, removeEntry fs p)
      | some .other => (.ok, removeEntry fs p)
      | some (.dir _ .nil) => (.ok, removeEntry fs p)
      | some (.dir _ (.cons _ _ _)) => (.crash, fs)

/-- `BaseFileManager::rename` of the printing variant
(FileManager.cpp:107-115): `fs::rename` inside try/catch; a missing source
or failed move is caught and printed as an error. -/
def rename (fs : FSTree) (oldPath newPath : FPath) : PrintOut × FSTree :=
  if fsExists fs oldPath = false then (.err, fs)
  else
    match insertEntry (removeEntry fs oldPath) newPath
        ((lookupFS fs oldPath).getD .file) with
    | some fs2 => (.ok, fs2)
    | none => (.err, fs)

end PrintingFileManager

/-! ## Claim C8 -/

/-- C8 counterexample: on an existing empty directory `d`, the status-code
`deleteFile` returns InvalidRequest (400) and deletes nothing, while the
direct-printing variant's `deleteFile` (a bare `fs::remove`) deletes the
directory and prints success — the two facades differ in filesystem effect
and in success/failure classification, not merely in reporting. -/
theorem claim_C8_counterexample :
    BaseFileManager.deleteFile
      (FSTree.dir true (.cons "d" (.dir true .nil) .nil)) ["d"]
      = (400, FSTree.dir true (.cons "d" (.dir true .nil) .nil))
    ∧ PrintingFileManager.deleteFile
        (FSTree.dir true (.cons "d" (.dir true .nil) .nil)) ["d"]
      = (.ok, FSTree.dir true .nil) :=
  ⟨rfl, rfl⟩

/-- C8 (amended): the two facade variants agree on `createFile` and `rename`
— identical filesystem effect and identical success/failure classification,
differing only in how the outcome is reported — but they are not equivalent
in general: the printing variant's `deleteFile` removes an empty directory
that the status-code variant rejects with InvalidRequest and leaves intact. -/
theorem claim_C8_theorem (fs : FSTree) (p o n : FPath) :
    ((BaseFileManager.createFile fs p).2 = (PrintingFileManager.createFile fs p).2
      ∧ ((BaseFileManager.createFile fs p).1 = 200 ↔
          (PrintingFileManager.createFile fs p).1 = .ok))
    ∧ ((BaseFileManager.rename fs o n).2 = (PrintingFileManager.rename fs o n).2
      ∧ ((BaseFileManager.rename fs o n).1 = 200 ↔
          (PrintingFileManager.rename fs o n).1 = .ok)) := by
  constructor
  · unfold BaseFileManager.createFile PrintingFileManager.createFile
    cases hl : lookupFS fs p with
    | none =>
        cases hins : insertEntry fs p .file with
        | none => simp
        | some fs2 => simp
    | some c => cases c <;> simp
  · unfold BaseFileManager.rename PrintingFileManager.rename
    by_cases he : fsExists fs o = false
    · rw [if_pos he, if_pos he]
      simp
    · rw [if_neg he, if_neg he]
      cases hins : insertEntry (removeEntry fs o) n ((lookupFS fs o).getD .file) with
      | none => simp
      | some fs2 => simp

/-- Witness for C8 (amended) at concrete inputs. -/
theorem claim_C8_witness :
    ((BaseFileManager.createFile (FSTree.dir true .nil) ["p"]).2
        = (PrintingFileManager.createFile (FSTree.dir true .nil) ["p"]).2
      ∧ ((BaseFileManager.createFile (FSTree.dir true .nil) ["p"]).1 = 200 ↔
          (PrintingFileManager.createFile (FSTree.dir true .nil) ["p"]).1 = .ok))
    ∧ ((BaseFileManager.rename (FSTree.dir true .nil) ["o"] ["n"]).2
        = (PrintingFileManager.rename (FSTree.dir true .nil) ["o"] ["n"]).2
      ∧ ((BaseFileManager.rename (FSTree.dir true .nil) ["o"] ["n"]).1 = 200 ↔
          (PrintingFileManager.rename (FSTree.dir true .nil) ["o"] ["n"]).1 = .ok)) :=
  claim_C8_theorem (FSTree.dir true .nil) ["p"] ["o"] ["n"]
